import Mathlib

/-!
Verification of the LLM-response extraction and normalization pipeline of
`code_comparison-tool.py` (class `RepoComparisonTool`).

The embedding models Python dictionaries produced by `json.loads` as
association lists of string keys and `JsonVal` values, Python strings as
`List Char`, and the `ollama` subprocess invocation as an `InvokeResult`
(completed with captured stdout and exit code, timeout, or spawn error).
`json.loads` itself is an external library function; the pipeline is
parametrized over a parse function `String → Except String JsonObj`
(an `.error` covers both a JSON decode error and the `AttributeError`
raised by `setdefault` when the parsed value is not an object — both are
swallowed by the same `except Exception` handler in the source).
-/

namespace CodeComparisonTool

/-- A JSON value as produced by parsing the model output. -/
inductive JsonVal where
  | jnull : JsonVal
  | jbool : Bool → JsonVal
  | jint : Int → JsonVal
  | jstr : String → JsonVal
  | jarr : List JsonVal → JsonVal
  | jobj : List (String × JsonVal) → JsonVal

/-- A parsed Python dict: insertion-ordered association list with string keys. -/
abbrev JsonObj := List (String × JsonVal)

/-- Dictionary lookup, `d[k]` / `d.get(k)`: first binding of the key. -/
def jget : JsonObj → String → Option JsonVal
  | [], _ => none
  | (k, v) :: rest, key => if k = key then some v else jget rest key

/-- Python `dict.setdefault(k, v)`: insert `(k, v)` at the end iff `k` is absent. -/
def setdefault (o : JsonObj) (k : String) (v : JsonVal) : JsonObj :=
  match jget o k with
  | some _ => o
  | none => o ++ [(k, v)]

/-- The default-filling block of `llm_compare_files` (source lines 233-237):
five `setdefault` calls, in source order.  Note that no default is installed
for a `quality_issues` key. -/
def normalize (o : JsonObj) : JsonObj :=
  setdefault
    (setdefault
      (setdefault
        (setdefault
          (setdefault o "similarity_percentage" (.jint 0))
          "refactoring_level" (.jstr "unknown"))
        "added_features" (.jbool false))
      "removed_features" (.jbool false))
    "notes" (.jstr "No analysis available")

/-- The record returned by the `except` handler of `llm_compare_files`
(source lines 242-248); `cause` is `str(e)`.  It has exactly five keys. -/
def failureRecord (cause : String) : JsonObj :=
  [("similarity_percentage", .jint 0),
   ("refactoring_level", .jstr "unknown"),
   ("added_features", .jbool false),
   ("removed_features", .jbool false),
   ("notes", .jstr ("Error in analysis: " ++ cause))]

/-- Outcome of the `subprocess.run(["ollama", ...])` call: the process
completed (with captured stdout and an exit code), timed out
(`subprocess.TimeoutExpired`, carrying `str(e)`), or could not be spawned
(`OSError` etc., carrying `str(e)`). -/
inductive InvokeResult where
  | completed : String → Int → InvokeResult
  | timeout : String → InvokeResult
  | spawnError : String → InvokeResult

/-- Python `str.strip()`: drop leading and trailing whitespace. -/
def pyStrip (cs : List Char) : List Char :=
  ((cs.dropWhile Char.isWhitespace).reverse.dropWhile Char.isWhitespace).reverse

/-- Index of the first occurrence of a character, if any. -/
def findFirst : List Char → Char → Option Nat
  | [], _ => none
  | x :: xs, c => if x = c then some 0 else (findFirst xs c).map (· + 1)

/-- Index of the last occurrence of a character, if any. -/
def findLast : List Char → Char → Option Nat
  | [], _ => none
  | x :: xs, c =>
    match findLast xs c with
    | some n => some (n + 1)
    | none => if x = c then some 0 else none

/-- Python `str.find`: first index, or `-1` when absent. -/
def pyFind (cs : List Char) (c : Char) : Int :=
  match findFirst cs c with
  | some n => n
  | none => -1

/-- Python `str.rfind`: last index, or `-1` when absent. -/
def pyRfind (cs : List Char) (c : Char) : Int :=
  match findLast cs c with
  | some n => n
  | none => -1

/-- Python slice `cs[a:b]` for the non-negative bounds arising here. -/
def pySlice (cs : List Char) (a b : Int) : List Char :=
  (cs.take b.toNat).drop a.toNat

/-- Payload extraction of `llm_compare_files` (source lines 224-229):
`json_start = output.find('{')`, `json_end = output.rfind('}') + 1`; raise
`ValueError("No JSON found in LLM output")` when `json_start == -1` or
`json_end == 0`, else slice `output[json_start:json_end]`. -/
def extractPayload (output : List Char) : Except String (List Char) :=
  let json_start := pyFind output '{'
  let json_end := pyRfind output '}' + 1
  if json_start = -1 ∨ json_end = 0 then
    .error "No JSON found in LLM output"
  else
    .ok (pySlice output json_start json_end)

/-- Processing of the captured stdout in `llm_compare_files` (source lines
221-239): strip, extract the brace span, parse, default-fill.  Every failure
is converted into `failureRecord` by the enclosing `except` handler. -/
def processOutput (parse : String → Except String JsonObj) (stdout : String) :
    JsonObj :=
  match extractPayload (pyStrip stdout.data) with
  | .error msg => failureRecord msg
  | .ok json_str =>
    match parse (String.mk json_str) with
    | .error msg => failureRecord msg
    | .ok comparison => normalize comparison

/-- `RepoComparisonTool.llm_compare_files` (source lines 214-248), as a
function of the subprocess outcome.  The exit code of a completed process is
never inspected; a timeout or spawn failure falls into the `except` handler. -/
def llm_compare_files (parse : String → Except String JsonObj)
    (inv : InvokeResult) : JsonObj :=
  match inv with
  | .completed stdout _exit_code => processOutput parse stdout
  | .timeout msg => failureRecord msg
  | .spawnError msg => failureRecord msg

/-- Opening text of the comparison prompt (source lines 188-195); the literal
JSON schema shown to the model is irrelevant to the pipeline and elided. -/
def promptHeader : String :=
  "Compare the following two code files semantically. ORIGINAL: "

/-- Middle text of the comparison prompt (source lines 199-203). -/
def promptMiddle : String :=
  " FORK VERSION: "

/-- Closing text of the comparison prompt (source lines 205-213). -/
def promptFooter : String :=
  " Return ONLY valid JSON format."

/-- The prompt of `llm_compare_files`: both contents truncated to their first
10000 characters (source lines 197 and 202). -/
def buildPrompt (original_content fork_content : String) : String :=
  promptHeader ++ String.mk (original_content.data.take 10000) ++
    promptMiddle ++ String.mk (fork_content.data.take 10000) ++ promptFooter

/-- The whole comparison step for a file pair: build the prompt, run the
invoker on it, process the outcome.  `invoker` maps a prompt to the outcome
of its `subprocess.run` call. -/
def compare (parse : String → Except String JsonObj)
    (invoker : String → InvokeResult) (original_content fork_content : String) :
    JsonObj :=
  llm_compare_files parse (invoker (buildPrompt original_content fork_content))

/-- The record returned by the `except` handler of
`llm_code_quality_analysis` (source line 293): `{"issues": []}`. -/
def emptyIssues : JsonObj := [("issues", JsonVal.jarr [])]

/-- The string handed to `json.loads` by `llm_code_quality_analysis` (source
lines 283-288): strip stdout, then slice `output[json_start:json_end]` only
when `json_start != -1 and json_end != -1`.  Since `json_end = rfind + 1` is
always at least `0`, the second test never fails. -/
def qualitySlice (stdout : String) : String :=
  let output := pyStrip stdout.data
  let json_start := pyFind output '{'
  let json_end := pyRfind output '}' + 1
  if json_start ≠ -1 ∧ json_end ≠ -1 then
    String.mk (pySlice output json_start json_end)
  else
    String.mk output

/-- `RepoComparisonTool.llm_code_quality_analysis` (source lines 277-293) as
a function of the subprocess outcome: the parsed object is returned as-is
(no default filling); any failure yields `emptyIssues`. -/
def llm_code_quality_analysis (parse : String → Except String JsonObj)
    (inv : InvokeResult) : JsonObj :=
  match inv with
  | .completed stdout _exit_code =>
    match parse (qualitySlice stdout) with
    | .ok j => j
    | .error _ => emptyIssues
  | .timeout _ => emptyIssues
  | .spawnError _ => emptyIssues

/-- Parse a non-empty run of decimal digits. -/
def digitsToNat : List Char → Option Nat
  | [] => none
  | cs => cs.foldl (fun acc c =>
      acc.bind fun n => if c.isDigit then some (n * 10 + (c.toNat - 48)) else none)
      (some 0)

/-- Python `int(s)` on a string: strip, optional sign, all-digit body. -/
def pyIntOfString (s : String) : Option Int :=
  match pyStrip s.data with
  | '-' :: rest => (digitsToNat rest).map (fun n => -(n : Int))
  | '+' :: rest => (digitsToNat rest).map (fun n => (n : Int))
  | cs => (digitsToNat cs).map (fun n => (n : Int))

/-- Python `int(x)` on a JSON value: succeeds on integers, booleans and
numeric strings; raises (`ValueError`/`TypeError`) otherwise. -/
def pyInt : JsonVal → Option Int
  | .jint n => some n
  | .jbool b => some (if b then 1 else 0)
  | .jstr s => pyIntOfString s
  | _ => none

/-- The value summed for one file entry in `compare_repos` (source line 163):
`int(f["comparison"]["similarity_percentage"])`; `none` models the
`ValueError`/`TypeError`/`KeyError` caught at line 166. -/
def simOf (f : JsonObj) : Option Int :=
  (jget f "similarity_percentage").bind pyInt

/-- The similarity values of all file entries; `none` as soon as any single
conversion raises, matching the generator inside `sum(...)`. -/
def simsOf : List JsonObj → Option (List Int)
  | [] => some []
  | f :: rest =>
    match simOf f, simsOf rest with
    | some n, some ns => some (n :: ns)
    | _, _ => none

/-- Whether a looked-up `refactoring_level` value equals the string `s`
(the comparison performed by `refactoring_levels.count(s)`). -/
def isLevel (s : String) (x : Option JsonVal) : Bool :=
  match x with
  | some (.jstr t) => decide (t = s)
  | _ => false

/-- The summary block of `compare_repos` (source lines 125-134 and 158-183). -/
structure Summary where
  average_similarity : ℚ
  dist_none : Nat
  dist_low : Nat
  dist_medium : Nat
  dist_high : Nat
  files_compared : Nat
deriving DecidableEq, Repr

/-- `total_similarity` as computed by `compare_repos` lines 158-167:
`-1` unless every entry's similarity converts, in which case the mean. -/
def summaryAvg (files : List JsonObj) : ℚ :=
  match simsOf files with
  | some sims => (sims.sum : ℚ) / (files.length : ℚ)
  | none => -1

/-- The `refactoring_levels` list of `compare_repos` lines 169-172. -/
def levelsOf (files : List JsonObj) : List (Option JsonVal) :=
  files.map (fun f => jget f "refactoring_level")

/-- `compare_repos` summary computation (source lines 120-185): the initial
all-zero summary survives when no files were compared; otherwise it is
recomputed from the per-file comparison records. -/
def compare_repos_summary (files : List JsonObj) : Summary :=
  match files with
  | [] => ⟨0, 0, 0, 0, 0, 0⟩
  | _ :: _ =>
    ⟨summaryAvg files,
     (levelsOf files).countP (isLevel "none"),
     (levelsOf files).countP (isLevel "low"),
     (levelsOf files).countP (isLevel "medium"),
     (levelsOf files).countP (isLevel "high"),
     files.length⟩

/-- An opening structural brace, as a one-character string. -/
def obr : String := "\x7b"

/-- A closing structural brace, as a one-character string. -/
def cbr : String := "\x7d"

/-- The spec's greedy-extraction example input `blah {"a":1} blah {"b":2}`. -/
def exGreedy : List Char :=
  ("blah " ++ obr ++ "\"a\":1" ++ cbr ++ " blah " ++ obr ++ "\"b\":2" ++ cbr).data

/-- The expected greedy-extraction output `{"a":1} blah {"b":2}`. -/
def exGreedyOut : List Char :=
  (obr ++ "\"a\":1" ++ cbr ++ " blah " ++ obr ++ "\"b\":2" ++ cbr).data

/-- A parse function that always fails, as `json.loads` does on garbage. -/
def errParse : String → Except String JsonObj :=
  fun _ => Except.error "Expecting value"

/-- A parse function accepting exactly the two-character payload of an empty
object, as `json.loads` does on the string consisting of the two braces. -/
def okEmptyParse : String → Except String JsonObj :=
  fun s => if s = obr ++ cbr then Except.ok [] else Except.error "invalid"

/-- A model output containing an opening brace but no closing brace. -/
def exOpenBrace : String := "x" ++ obr ++ "y"

/-- An invoker that times out on every prompt. -/
def invokerA : String → InvokeResult := fun _ => .timeout "slow model"

/-- An invoker that times out on one specific prompt and fails to spawn on
every other. -/
def invokerB : String → InvokeResult :=
  fun p => if p = buildPrompt "a" "b" then .timeout "slow model"
           else .spawnError "no ollama"

/-- Three well-typed comparison records, as in the spec's aggregation example. -/
def exFiles : List JsonObj :=
  [[("similarity_percentage", .jint 80), ("refactoring_level", .jstr "low")],
   [("similarity_percentage", .jint 60), ("refactoring_level", .jstr "unknown")],
   [("similarity_percentage", .jint 100), ("refactoring_level", .jstr "high")]]

/-- A comparison record whose similarity value is a non-numeric string. -/
def exBadEntry : JsonObj :=
  [("similarity_percentage", JsonVal.jstr "N/A"), ("refactoring_level", JsonVal.jstr "low")]

/-- A record sequence containing one inconvertible similarity value. -/
def exBadFiles : List JsonObj :=
  [exBadEntry,
   [("similarity_percentage", .jint 60), ("refactoring_level", .jstr "none")]]

/-! ## Helper lemmas -/

theorem mem_of_getElem?_eq {α : Type} {l : List α} {i : Nat} {a : α}
    (h : l[i]? = some a) : a ∈ l := by
  rw [List.getElem?_eq_some] at h
  obtain ⟨hn, rfl⟩ := h
  exact List.getElem_mem hn

theorem jget_append (o₁ o₂ : JsonObj) (k : String) :
    jget (o₁ ++ o₂) k = (jget o₁ k).elim (jget o₂ k) some := by
  induction o₁ with
  | nil => rfl
  | cons p rest ih =>
    obtain ⟨k₀, v₀⟩ := p
    by_cases h : k₀ = k
    · simp [jget, h]
    · simpa [jget, h] using ih

theorem jget_setdefault_self (o : JsonObj) (k : String) (v : JsonVal) :
    jget (setdefault o k v) k = some ((jget o k).getD v) := by
  unfold setdefault
  cases h : jget o k with
  | some w => simp [h]
  | none => simp [jget_append, h, jget]

theorem jget_setdefault_of_ne (o : JsonObj) (k k' : String) (v : JsonVal)
    (h : k' ≠ k) :
    jget (setdefault o k v) k' = jget o k' := by
  unfold setdefault
  cases hk : jget o k with
  | some w => rfl
  | none =>
    rw [jget_append]
    have : jget [(k, v)] k' = none := by simp [jget, Ne.symm h]
    rw [this]
    cases jget o k' <;> rfl

theorem normalize_sim (o : JsonObj) :
    jget (normalize o) "similarity_percentage" =
      some ((jget o "similarity_percentage").getD (.jint 0)) := by
  unfold normalize
  rw [jget_setdefault_of_ne _ _ _ _ (by decide),
      jget_setdefault_of_ne _ _ _ _ (by decide),
      jget_setdefault_of_ne _ _ _ _ (by decide),
      jget_setdefault_of_ne _ _ _ _ (by decide),
      jget_setdefault_self]

theorem normalize_level (o : JsonObj) :
    jget (normalize o) "refactoring_level" =
      some ((jget o "refactoring_level").getD (.jstr "unknown")) := by
  unfold normalize
  rw [jget_setdefault_of_ne _ _ _ _ (by decide),
      jget_setdefault_of_ne _ _ _ _ (by decide),
      jget_setdefault_of_ne _ _ _ _ (by decide),
      jget_setdefault_self,
      jget_setdefault_of_ne _ _ _ _ (by decide)]

theorem normalize_added (o : JsonObj) :
    jget (normalize o) "added_features" =
      some ((jget o "added_features").getD (.jbool false)) := by
  unfold normalize
  rw [jget_setdefault_of_ne _ _ _ _ (by decide),
      jget_setdefault_of_ne _ _ _ _ (by decide),
      jget_setdefault_self,
      jget_setdefault_of_ne _ _ _ _ (by decide),
      jget_setdefault_of_ne _ _ _ _ (by decide)]

theorem normalize_removed (o : JsonObj) :
    jget (normalize o) "removed_features" =
      some ((jget o "removed_features").getD (.jbool false)) := by
  unfold normalize
  rw [jget_setdefault_of_ne _ _ _ _ (by decide),
      jget_setdefault_self,
      jget_setdefault_of_ne _ _ _ _ (by decide),
      jget_setdefault_of_ne _ _ _ _ (by decide),
      jget_setdefault_of_ne _ _ _ _ (by decide)]

theorem normalize_notes (o : JsonObj) :
    jget (normalize o) "notes" =
      some ((jget o "notes").getD (.jstr "No analysis available")) := by
  unfold normalize
  rw [jget_setdefault_self,
      jget_setdefault_of_ne _ _ _ _ (by decide),
      jget_setdefault_of_ne _ _ _ _ (by decide),
      jget_setdefault_of_ne _ _ _ _ (by decide),
      jget_setdefault_of_ne _ _ _ _ (by decide)]

theorem normalize_quality (o : JsonObj) :
    jget (normalize o) "quality_issues" = jget o "quality_issues" := by
  unfold normalize
  rw [jget_setdefault_of_ne _ _ _ _ (by decide),
      jget_setdefault_of_ne _ _ _ _ (by decide),
      jget_setdefault_of_ne _ _ _ _ (by decide),
      jget_setdefault_of_ne _ _ _ _ (by decide),
      jget_setdefault_of_ne _ _ _ _ (by decide)]

theorem findFirst_eq_none_iff (cs : List Char) (c : Char) :
    findFirst cs c = none ↔ c ∉ cs := by
  induction cs with
  | nil => simp [findFirst]
  | cons x xs ih =>
    by_cases h : x = c
    · simp [findFirst, h]
    · simp [findFirst, h, Option.map_eq_none', ih, Ne.symm h]

theorem findFirst_isSome_of_mem {cs : List Char} {c : Char} (h : c ∈ cs) :
    ∃ n, findFirst cs c = some n := by
  cases hf : findFirst cs c with
  | none => exact absurd ((findFirst_eq_none_iff cs c).mp hf) (not_not_intro h)
  | some n => exact ⟨n, rfl⟩

theorem findFirst_getElem {cs : List Char} {c : Char} {n : Nat}
    (h : findFirst cs c = some n) : cs[n]? = some c := by
  induction cs generalizing n with
  | nil => simp [findFirst] at h
  | cons x xs ih =>
    by_cases hx : x = c
    · simp [findFirst, hx] at h
      simp [← h, hx]
    · simp only [findFirst, if_neg hx, Option.map_eq_some'] at h
      obtain ⟨m, hm, rfl⟩ := h
      simpa [List.getElem?_cons_succ] using ih hm

theorem findFirst_min {cs : List Char} {c : Char} {n : Nat}
    (h : findFirst cs c = some n) : ∀ k, k < n → cs[k]? ≠ some c := by
  induction cs generalizing n with
  | nil => simp [findFirst] at h
  | cons x xs ih =>
    by_cases hx : x = c
    · simp [findFirst, hx] at h
      intro k hk
      omega
    · simp only [findFirst, if_neg hx, Option.map_eq_some'] at h
      obtain ⟨m, hm, rfl⟩ := h
      intro k hk
      match k with
      | 0 => simpa using hx
      | k + 1 =>
        rw [List.getElem?_cons_succ]
        exact ih hm k (by omega)

theorem findLast_eq_none_iff (cs : List Char) (c : Char) :
    findLast cs c = none ↔ c ∉ cs := by
  induction cs with
  | nil => simp [findLast]
  | cons x xs ih =>
    unfold findLast
    cases hl : findLast xs c with
    | some m =>
      have hc : c ∈ xs := by
        by_contra hc
        rw [← ih] at hc
        simp [hc] at hl
      simp [hc]
    | none =>
      have hc : c ∉ xs := ih.mp hl
      by_cases hx : x = c
      · simp [hx]
      · simp [hx, hc, Ne.symm hx]

theorem findLast_isSome_of_mem {cs : List Char} {c : Char} (h : c ∈ cs) :
    ∃ n, findLast cs c = some n := by
  cases hf : findLast cs c with
  | none => exact absurd ((findLast_eq_none_iff cs c).mp hf) (not_not_intro h)
  | some n => exact ⟨n, rfl⟩

theorem findLast_getElem {cs : List Char} {c : Char} {n : Nat}
    (h : findLast cs c = some n) : cs[n]? = some c := by
  induction cs generalizing n with
  | nil => simp [findLast] at h
  | cons x xs ih =>
    unfold findLast at h
    cases hl : findLast xs c with
    | some m =>
      rw [hl] at h
      obtain rfl : m + 1 = n := by simpa using h
      simpa [List.getElem?_cons_succ] using ih hl
    | none =>
      rw [hl] at h
      by_cases hx : x = c
      · simp [hx] at h
        simp [← h, hx]
      · simp [hx] at h

theorem findLast_max {cs : List Char} {c : Char} {n : Nat}
    (h : findLast cs c = some n) : ∀ k, n < k → cs[k]? ≠ some c := by
  induction cs generalizing n with
  | nil => simp [findLast] at h
  | cons x xs ih =>
    unfold findLast at h
    cases hl : findLast xs c with
    | some m =>
      rw [hl] at h
      obtain rfl : m + 1 = n := by simpa using h
      intro k hk
      match k with
      | 0 => omega
      | k + 1 =>
        rw [List.getElem?_cons_succ]
        exact ih hl k (by omega)
    | none =>
      rw [hl] at h
      by_cases hx : x = c
      · simp [hx] at h
        intro k hk
        match k with
        | 0 => omega
        | k + 1 =>
          rw [List.getElem?_cons_succ]
          intro hget
          exact absurd (mem_of_getElem?_eq hget) ((findLast_eq_none_iff xs c).mp hl)
      · simp [hx] at h

theorem findFirst_le_of_getElem {cs : List Char} {c : Char} {i n : Nat}
    (hi : cs[i]? = some c) (h : findFirst cs c = some n) : n ≤ i := by
  by_contra hlt
  exact findFirst_min h i (by omega) hi

theorem findLast_ge_of_getElem {cs : List Char} {c : Char} {j n : Nat}
    (hj : cs[j]? = some c) (h : findLast cs c = some n) : j ≤ n := by
  by_contra hlt
  exact findLast_max h j (by omega) hj

theorem simsOf_eq_none_of_mem {files : List JsonObj} {f : JsonObj}
    (hf : f ∈ files) (h : simOf f = none) : simsOf files = none := by
  induction files with
  | nil => cases hf
  | cons g rest ih =>
    rcases List.mem_cons.mp hf with rfl | hmem
    · cases hrest : simsOf rest <;> simp [simsOf, h, hrest]
    · rw [show simsOf (g :: rest) =
        (match simOf g, simsOf rest with
         | some n, some ns => some (n :: ns)
         | _, _ => none) from rfl, ih hmem]
      cases simOf g <;> rfl

theorem isLevel_bound (x : Option JsonVal) :
    (if isLevel "none" x = true then 1 else 0) +
    (if isLevel "low" x = true then 1 else 0) +
    (if isLevel "medium" x = true then 1 else 0) +
    (if isLevel "high" x = true then 1 else 0) +
    (if isLevel "unknown" x = true then 1 else 0) ≤ 1 := by
  match x with
  | none => simp [isLevel]
  | some .jnull => simp [isLevel]
  | some (.jbool b) => simp [isLevel]
  | some (.jint n) => simp [isLevel]
  | some (.jarr l) => simp [isLevel]
  | some (.jobj o) => simp [isLevel]
  | some (.jstr t) =>
    simp only [isLevel]
    by_cases h1 : t = "none"
    · subst h1; decide
    · by_cases h2 : t = "low"
      · subst h2; decide
      · by_cases h3 : t = "medium"
        · subst h3; decide
        · by_cases h4 : t = "high"
          · subst h4; decide
          · by_cases h5 : t = "unknown"
            · subst h5; decide
            · simp [h1, h2, h3, h4, h5]

theorem levelCount_eq (files : List JsonObj) (s : String) :
    (levelsOf files).countP (isLevel s) =
      files.countP (fun f => isLevel s (jget f "refactoring_level")) := by
  unfold levelsOf
  rw [List.countP_map]
  rfl

theorem countP_levels_le (l : List (Option JsonVal)) :
    l.countP (isLevel "none") + l.countP (isLevel "low") +
      l.countP (isLevel "medium") + l.countP (isLevel "high") +
      l.countP (isLevel "unknown") ≤ l.length := by
  induction l with
  | nil => simp
  | cons x xs ih =>
    simp only [List.countP_cons, List.length_cons]
    have hx := isLevel_bound x
    omega

/-! ## Claims -/

/-- C1 (counterexample): the claim asserts that every internal failure of
`compare` yields the canonical failure record including a
`quality_issues: []` field.  On a timeout, the record returned by the
`except` handler of `llm_compare_files` has no `quality_issues` key at all. -/
theorem claim_C1_counterexample :
    jget (llm_compare_files errParse (.timeout "Command timed out after 120 seconds"))
      "quality_issues" = none := rfl

/-- C1 (amended): for every internal failure of the comparison pipeline
(no structural braces found, parse error of the extracted substring, process
spawn error, or invocation timeout), `llm_compare_files` returns — as an
ordinary value, never a propagated exception (the embedding is a total
function) — the failure record with the five fields
similarity_percentage = 0, refactoring_level = "unknown",
added_features = false, removed_features = false,
notes = "Error in analysis: <cause>", and no quality_issues key. -/
theorem claim_C1 (parse : String → Except String JsonObj)
    (stdout msg : String) (exit_code : Int) :
    llm_compare_files parse (.timeout msg) = failureRecord msg ∧
    llm_compare_files parse (.spawnError msg) = failureRecord msg ∧
    (∀ m, extractPayload (pyStrip stdout.data) = Except.error m →
      llm_compare_files parse (.completed stdout exit_code) = failureRecord m) ∧
    (∀ js m, extractPayload (pyStrip stdout.data) = Except.ok js →
      parse (String.mk js) = Except.error m →
      llm_compare_files parse (.completed stdout exit_code) = failureRecord m) ∧
    jget (failureRecord msg) "similarity_percentage" = some (.jint 0) ∧
    jget (failureRecord msg) "refactoring_level" = some (.jstr "unknown") ∧
    jget (failureRecord msg) "added_features" = some (.jbool false) ∧
    jget (failureRecord msg) "removed_features" = some (.jbool false) ∧
    jget (failureRecord msg) "notes" = some (.jstr ("Error in analysis: " ++ msg)) ∧
    jget (failureRecord msg) "quality_issues" = none := by
  refine ⟨rfl, rfl, ?_, ?_, rfl, rfl, rfl, rfl, rfl, rfl⟩
  · intro m hm
    simp [llm_compare_files, processOutput, hm]
  · intro js m hjs hm
    simp [llm_compare_files, processOutput, hjs, hm]

/-- C1 (witness): the amended theorem evaluated at a timeout, at an output
with no braces, and at an unparseable extracted payload. -/
theorem claim_C1_witness :
    llm_compare_files errParse (.timeout "timed out") = failureRecord "timed out" ∧
    llm_compare_files errParse (.completed "no braces at all" 0) =
      failureRecord "No JSON found in LLM output" ∧
    llm_compare_files errParse (.completed (obr ++ cbr) 0) =
      failureRecord "Expecting value" :=
  ⟨(claim_C1 errParse "" "timed out" 0).1,
   (claim_C1 errParse "no braces at all" "" 0).2.2.1 "No JSON found in LLM output" rfl,
   (claim_C1 errParse (obr ++ cbr) "" 0).2.2.2.1 ['{', '}'] "Expecting value" rfl rfl⟩

/-- C2 (counterexample): the claim asserts that the normalizer default-fills
`quality_issues = []`, so that every pipeline result has it present.  On a
successfully parsed empty object, the returned record has no
`quality_issues` key. -/
theorem claim_C2_counterexample :
    jget (llm_compare_files okEmptyParse (.completed (obr ++ cbr) 0))
      "quality_issues" = none := rfl

/-- C2 (amended): for every successfully parsed payload, the normalizer
fills each absent field among the five {similarity_percentage,
refactoring_level, added_features, removed_features, notes} with its
documented default (0, "unknown", false, false, "No analysis available"),
passes fields already present through unchanged without type coercion, and
never installs a `quality_issues` default (that key is present in the result
iff the parsed payload contained it); consequently every record returned by
the pipeline — success or failure — carries the five fields. -/
theorem claim_C2 (o : JsonObj) (parse : String → Except String JsonObj)
    (inv : InvokeResult) :
    jget (normalize o) "similarity_percentage" =
      some ((jget o "similarity_percentage").getD (.jint 0)) ∧
    jget (normalize o) "refactoring_level" =
      some ((jget o "refactoring_level").getD (.jstr "unknown")) ∧
    jget (normalize o) "added_features" =
      some ((jget o "added_features").getD (.jbool false)) ∧
    jget (normalize o) "removed_features" =
      some ((jget o "removed_features").getD (.jbool false)) ∧
    jget (normalize o) "notes" =
      some ((jget o "notes").getD (.jstr "No analysis available")) ∧
    jget (normalize o) "quality_issues" = jget o "quality_issues" ∧
    ((jget (llm_compare_files parse inv) "similarity_percentage").isSome = true ∧
     (jget (llm_compare_files parse inv) "refactoring_level").isSome = true ∧
     (jget (llm_compare_files parse inv) "added_features").isSome = true ∧
     (jget (llm_compare_files parse inv) "removed_features").isSome = true ∧
     (jget (llm_compare_files parse inv) "notes").isSome = true) := by
  refine ⟨normalize_sim o, normalize_level o, normalize_added o,
    normalize_removed o, normalize_notes o, normalize_quality o, ?_⟩
  cases inv with
  | timeout m => exact ⟨rfl, rfl, rfl, rfl, rfl⟩
  | spawnError m => exact ⟨rfl, rfl, rfl, rfl, rfl⟩
  | completed s e =>
    cases hext : extractPayload (pyStrip s.data) with
    | error m =>
      simp only [llm_compare_files, processOutput, hext]
      exact ⟨rfl, rfl, rfl, rfl, rfl⟩
    | ok js =>
      cases hp : parse (String.mk js) with
      | error m =>
        simp only [llm_compare_files, processOutput, hext, hp]
        exact ⟨rfl, rfl, rfl, rfl, rfl⟩
      | ok obj =>
        simp only [llm_compare_files, processOutput, hext, hp]
        exact ⟨by rw [normalize_sim]; rfl, by rw [normalize_level]; rfl,
          by rw [normalize_added]; rfl, by rw [normalize_removed]; rfl,
          by rw [normalize_notes]; rfl⟩

/-- C3: for every raw text containing a `{` somewhere before a `}`, the
extractor succeeds and returns the inclusive substring from the first `{`
(index `f`, minimal) to the last `}` (index `l`, maximal) — the greedy
first-to-last span, not the first balanced pair; and on the spec's example
input `blah {"a":1} blah {"b":2}` it returns `{"a":1} blah {"b":2}`. -/
theorem claim_C3 :
    (∀ (cs : List Char) (i j : Nat), i < j →
      cs[i]? = some '{' → cs[j]? = some '}' →
      ∃ f l, findFirst cs '{' = some f ∧ findLast cs '}' = some l ∧
        f ≤ i ∧ j ≤ l ∧
        extractPayload cs = Except.ok ((cs.take (l + 1)).drop f)) ∧
    extractPayload exGreedy = Except.ok exGreedyOut := by
  constructor
  · intro cs i j hij hi hj
    obtain ⟨f, hf⟩ := findFirst_isSome_of_mem (mem_of_getElem?_eq hi)
    obtain ⟨l, hl⟩ := findLast_isSome_of_mem (mem_of_getElem?_eq hj)
    have hfi : f ≤ i := findFirst_le_of_getElem hi hf
    have hjl : j ≤ l := findLast_ge_of_getElem hj hl
    refine ⟨f, l, hf, hl, hfi, hjl, ?_⟩
    have hstart : pyFind cs '{' = (f : Int) := by unfold pyFind; rw [hf]
    have hend : pyRfind cs '}' = (l : Int) := by unfold pyRfind; rw [hl]
    unfold extractPayload
    rw [hstart, hend, if_neg (by omega)]
    have htn : ((l : Int) + 1).toNat = l + 1 := by omega
    have hfn : ((f : Int)).toNat = f := by omega
    rw [pySlice, htn, hfn]
  · rfl

/-- C3 (witness): the general statement evaluated at the example input,
whose first `{` is at index 5 and last `}` at index 24. -/
theorem claim_C3_witness :
    ∃ f l, findFirst exGreedy '{' = some f ∧ findLast exGreedy '}' = some l ∧
      f ≤ 5 ∧ 24 ≤ l ∧
      extractPayload exGreedy = Except.ok ((exGreedy.take (l + 1)).drop f) :=
  claim_C3.1 exGreedy 5 24 (by decide) (by rfl) (by rfl)

/-- C4 (counterexample): the claim asserts that an input whose last `}` sits
before its first `{` (a negative span) makes extraction fail with
`NoPayloadFound`.  On such an input the guard `json_start == -1 or
json_end == 0` does not fire and the extractor returns the empty substring. -/
theorem claim_C4_counterexample :
    extractPayload ['}', ' ', '{'] = Except.ok [] := rfl

/-- C4 (amended): extraction fails with the `ValueError` ("NoPayloadFound")
exactly when the raw text contains no `{` or no `}`; when both occur but the
last `}` precedes the first `{` (empty or negative span), extraction does
not fail — it returns the empty substring, which the parser then rejects. -/
theorem claim_C4 (cs : List Char) :
    (extractPayload cs = Except.error "No JSON found in LLM output" ↔
      ('{' ∉ cs ∨ '}' ∉ cs)) ∧
    (∀ f l, findFirst cs '{' = some f → findLast cs '}' = some l → l < f →
      extractPayload cs = Except.ok []) := by
  constructor
  · cases hf : findFirst cs '{' with
    | none =>
      have h1 : '{' ∉ cs := (findFirst_eq_none_iff cs '{').mp hf
      have : extractPayload cs = Except.error "No JSON found in LLM output" := by
        unfold extractPayload pyFind
        rw [hf]
        simp
      simp [this, h1]
    | some f =>
      have h1 : '{' ∈ cs := mem_of_getElem?_eq (findFirst_getElem hf)
      cases hl : findLast cs '}' with
      | none =>
        have h2 : '}' ∉ cs := (findLast_eq_none_iff cs '}').mp hl
        have : extractPayload cs = Except.error "No JSON found in LLM output" := by
          unfold extractPayload pyFind pyRfind
          rw [hf, hl]
          simp
        simp [this, h2]
      | some l =>
        have h2 : '}' ∈ cs := mem_of_getElem?_eq (findLast_getElem hl)
        have hstart : pyFind cs '{' = (f : Int) := by unfold pyFind; rw [hf]
        have hend : pyRfind cs '}' = (l : Int) := by unfold pyRfind; rw [hl]
        have : extractPayload cs =
            Except.ok (pySlice cs ((f : Int)) ((l : Int) + 1)) := by
          unfold extractPayload
          rw [hstart, hend, if_neg (by omega)]
        simp [this, h1, h2]
  · intro f l hf hl hlf
    have hstart : pyFind cs '{' = (f : Int) := by unfold pyFind; rw [hf]
    have hend : pyRfind cs '}' = (l : Int) := by unfold pyRfind; rw [hl]
    unfold extractPayload
    rw [hstart, hend, if_neg (by omega)]
    have hlen : (cs.take (((l : Int) + 1).toNat)).length ≤ ((l : Int) + 1).toNat :=
      List.length_take_le _ _
    have hnil : pySlice cs ((f : Int)) ((l : Int) + 1) = [] :=
      List.drop_eq_nil_of_le (by omega)
    rw [hnil]

/-- C4 (witness): the amended theorem evaluated at an input with no braces,
where extraction fails, and at the inverted-span input, where it returns the
empty payload. -/
theorem claim_C4_witness :
    extractPayload ['x'] = Except.error "No JSON found in LLM output" ∧
    extractPayload ['}', 'x', 'x', '{'] = Except.ok [] :=
  ⟨(claim_C4 ['x']).1.mpr (Or.inl (by decide)),
   (claim_C4 ['}', 'x', 'x', '{']).2 3 0 rfl rfl (by decide)⟩

/-- C5: aggregation is a pure fold over the per-file comparison records: for
every sequence of well-typed comparison results (every similarity value an
integer), average_similarity is the arithmetic mean of the similarity values
(0 for the empty sequence — the division is never even attempted there, so
no division-by-zero error), each of the four always-present distribution
buckets counts the results whose refactoring_level equals that level's
string, files_compared is the length of the sequence, and the empty
sequence yields the all-zero summary. -/
theorem claim_C5 (files : List JsonObj) (sims : List Int)
    (h : simsOf files = some sims) :
    (compare_repos_summary files).files_compared = files.length ∧
    (files ≠ [] → (compare_repos_summary files).average_similarity =
      (sims.sum : ℚ) / (files.length : ℚ)) ∧
    (compare_repos_summary files).dist_none =
      files.countP (fun f => isLevel "none" (jget f "refactoring_level")) ∧
    (compare_repos_summary files).dist_low =
      files.countP (fun f => isLevel "low" (jget f "refactoring_level")) ∧
    (compare_repos_summary files).dist_medium =
      files.countP (fun f => isLevel "medium" (jget f "refactoring_level")) ∧
    (compare_repos_summary files).dist_high =
      files.countP (fun f => isLevel "high" (jget f "refactoring_level")) ∧
    compare_repos_summary [] = ⟨0, 0, 0, 0, 0, 0⟩ := by
  cases files with
  | nil =>
    refine ⟨rfl, fun hne => absurd rfl hne, ?_, ?_, ?_, ?_, rfl⟩ <;> rfl
  | cons g rest =>
    refine ⟨rfl, fun _ => ?_, levelCount_eq _ _, levelCount_eq _ _,
      levelCount_eq _ _, levelCount_eq _ _, rfl⟩
    show summaryAvg (g :: rest) = _
    unfold summaryAvg
    rw [h]

/-- C5 (witness): the spec's aggregation example — similarity values
[80, 60, 100] yield average 80 and files_compared 3; and the empty sequence
yields the all-zero summary. -/
theorem claim_C5_witness :
    simsOf exFiles = some [80, 60, 100] ∧
    (compare_repos_summary exFiles).average_similarity = 80 ∧
    (compare_repos_summary exFiles).files_compared = 3 ∧
    (compare_repos_summary exFiles).dist_low = 1 ∧
    compare_repos_summary [] = ⟨0, 0, 0, 0, 0, 0⟩ := by
  have h : simsOf exFiles = some [80, 60, 100] := rfl
  obtain ⟨h1, h2, _, h4, _, _, h7⟩ := claim_C5 exFiles [80, 60, 100] h
  refine ⟨h, ?_, ?_, ?_, h7⟩
  · rw [h2 (by exact List.cons_ne_nil _ _)]
    norm_num [exFiles, List.sum_cons, List.sum_nil]
  · rw [h1]; rfl
  · rw [h4]; rfl

/-- C6: for every completed model process invocation, `llm_compare_files`
proceeds to extraction on the captured standard output regardless of the
exit code — the result is a function of stdout alone, so a non-zero exit
code by itself never produces a failure record. -/
theorem claim_C6 (parse : String → Except String JsonObj) (stdout : String)
    (exit_code other_exit_code : Int) :
    llm_compare_files parse (.completed stdout exit_code) =
      processOutput parse stdout ∧
    llm_compare_files parse (.completed stdout exit_code) =
      llm_compare_files parse (.completed stdout other_exit_code) :=
  ⟨rfl, rfl⟩

/-- C7: `compare` is deterministic in the invoker output — for every pair of
input texts, two runs whose invokers return the same outcome on the composed
prompt yield identical comparison records. -/
theorem claim_C7 (parse : String → Except String JsonObj)
    (invoker₁ invoker₂ : String → InvokeResult)
    (original_content fork_content : String)
    (h : invoker₁ (buildPrompt original_content fork_content) =
      invoker₂ (buildPrompt original_content fork_content)) :
    compare parse invoker₁ original_content fork_content =
      compare parse invoker₂ original_content fork_content := by
  unfold compare
  rw [h]

/-- C7 (witness): two syntactically different invokers that agree on the
prompt built from the pair ("a", "b") produce identical records. -/
theorem claim_C7_witness :
    compare errParse invokerA "a" "b" = compare errParse invokerB "a" "b" :=
  claim_C7 errParse invokerA invokerB "a" "b" (by rfl)

/-- C8: if the per-file result sequence is non-empty and some result's
similarity value cannot be converted to an integer, the summary's
average_similarity is the sentinel -1 — negative, hence outside the
documented 0-100 range and distinct from the empty-sequence value 0 — while
the refactoring distribution and files_compared are still computed from the
same results. -/
theorem claim_C8 (files : List JsonObj) (hne : files ≠ [])
    (hbad : ∃ f ∈ files, simOf f = none) :
    (compare_repos_summary files).average_similarity = -1 ∧
    (compare_repos_summary files).average_similarity < 0 ∧
    (compare_repos_summary files).dist_none =
      files.countP (fun f => isLevel "none" (jget f "refactoring_level")) ∧
    (compare_repos_summary files).dist_low =
      files.countP (fun f => isLevel "low" (jget f "refactoring_level")) ∧
    (compare_repos_summary files).dist_medium =
      files.countP (fun f => isLevel "medium" (jget f "refactoring_level")) ∧
    (compare_repos_summary files).dist_high =
      files.countP (fun f => isLevel "high" (jget f "refactoring_level")) ∧
    (compare_repos_summary files).files_compared = files.length := by
  obtain ⟨f, hf, hnone⟩ := hbad
  have hnone' : simsOf files = none := simsOf_eq_none_of_mem hf hnone
  cases files with
  | nil => exact absurd rfl hne
  | cons g rest =>
    have havg : (compare_repos_summary (g :: rest)).average_similarity = -1 := by
      show summaryAvg (g :: rest) = -1
      unfold summaryAvg
      rw [hnone']
    exact ⟨havg, by rw [havg]; norm_num, levelCount_eq _ _, levelCount_eq _ _,
      levelCount_eq _ _, levelCount_eq _ _, rfl⟩

/-- C8 (witness): a two-record sequence whose first record's similarity is
the string "N/A" yields average -1 with the distribution and count intact. -/
theorem claim_C8_witness :
    (compare_repos_summary exBadFiles).average_similarity = -1 ∧
    (compare_repos_summary exBadFiles).dist_none = 1 ∧
    (compare_repos_summary exBadFiles).dist_low = 1 ∧
    (compare_repos_summary exBadFiles).files_compared = 2 := by
  obtain ⟨h1, _, h3, h4, _, _, h7⟩ :=
    claim_C8 exBadFiles (by exact List.cons_ne_nil _ _)
      ⟨exBadEntry, List.mem_cons_self _ _, rfl⟩
  exact ⟨h1, by rw [h3]; rfl, by rw [h4]; rfl, by rw [h7]; rfl⟩

/-- C9: in the single-file quality-analysis path, every failure — spawn
error, timeout, or a parse error on whatever string reaches `json.loads` —
yields the record with "issues" mapped to the empty array rather than an
exception; moreover, when the stripped output contains a `{` but no `}`,
the missing-end-brace guard never fires (the computed end index is 0, which
is only tested against -1), so the string handed to the parser is the empty
string, whose parse failure again yields that record. -/
theorem claim_C9 (parse : String → Except String JsonObj)
    (stdout msg : String) (exit_code : Int) :
    llm_code_quality_analysis parse (.timeout msg) = emptyIssues ∧
    llm_code_quality_analysis parse (.spawnError msg) = emptyIssues ∧
    (∀ m, parse (qualitySlice stdout) = Except.error m →
      llm_code_quality_analysis parse (.completed stdout exit_code) = emptyIssues) ∧
    ('{' ∈ pyStrip stdout.data → '}' ∉ pyStrip stdout.data →
      qualitySlice stdout = "") := by
  refine ⟨rfl, rfl, ?_, ?_⟩
  · intro m hm
    simp [llm_code_quality_analysis, hm]
  · intro hin hout
    obtain ⟨n, hn⟩ := findFirst_isSome_of_mem hin
    have hstart : pyFind (pyStrip stdout.data) '{' = (n : Int) := by
      unfold pyFind; rw [hn]
    have hend : pyRfind (pyStrip stdout.data) '}' = -1 := by
      unfold pyRfind
      rw [(findLast_eq_none_iff _ _).mpr hout]
    have h1 : (n : Int) ≠ -1 := by omega
    have hnil : pySlice (pyStrip stdout.data) ((n : Int)) 0 = [] := by
      simp [pySlice]
    simp only [qualitySlice, hstart, hend]
    rw [if_pos ⟨h1, by decide⟩, show ((-1 : Int) + 1) = 0 from rfl, hnil]

/-- C9 (witness): the claim theorem evaluated at a timeout, at an output
with an unmatched opening brace (the slice handed to the parser is empty),
and at a parse failure. -/
theorem claim_C9_witness :
    llm_code_quality_analysis errParse (.timeout "t") = emptyIssues ∧
    qualitySlice exOpenBrace = "" ∧
    llm_code_quality_analysis errParse (.completed exOpenBrace 0) = emptyIssues :=
  ⟨(claim_C9 errParse "" "t" 0).1,
   (claim_C9 errParse exOpenBrace "" 0).2.2.2 (by decide) (by decide),
   (claim_C9 errParse exOpenBrace "" 0).2.2.1 "Expecting value" rfl⟩

/-- C10: every result whose refactoring_level is the string "unknown"
(which includes every canonical failure record) is counted in
files_compared and contributes its similarity value to the average, but
falls into none of the four distribution buckets, so the bucket counts sum
to strictly fewer than files_compared. -/
theorem claim_C10 (files : List JsonObj) (f : JsonObj) (sims : List Int)
    (hf : f ∈ files)
    (hlev : jget f "refactoring_level" = some (.jstr "unknown"))
    (hs : simsOf files = some sims) :
    (compare_repos_summary files).files_compared = files.length ∧
    (compare_repos_summary files).average_similarity =
      (sims.sum : ℚ) / (files.length : ℚ) ∧
    (compare_repos_summary files).dist_none + (compare_repos_summary files).dist_low +
      (compare_repos_summary files).dist_medium + (compare_repos_summary files).dist_high <
      files.length := by
  have hne : files ≠ [] := List.ne_nil_of_mem hf
  cases files with
  | nil => exact absurd rfl hne
  | cons g rest =>
    refine ⟨rfl, ?_, ?_⟩
    · show summaryAvg (g :: rest) = _
      unfold summaryAvg
      rw [hs]
    · have hL : isLevel "unknown" (jget f "refactoring_level") = true := by
        rw [hlev]; simp [isLevel]
      have hmem : (jget f "refactoring_level") ∈ levelsOf (g :: rest) :=
        List.mem_map_of_mem _ hf
      have hpos : 0 < (levelsOf (g :: rest)).countP (isLevel "unknown") :=
        List.countP_pos_iff.mpr ⟨_, hmem, hL⟩
      have hle := countP_levels_le (levelsOf (g :: rest))
      have hlen : (levelsOf (g :: rest)).length = (g :: rest).length :=
        List.length_map _ _
      show (levelsOf (g :: rest)).countP (isLevel "none") +
        (levelsOf (g :: rest)).countP (isLevel "low") +
        (levelsOf (g :: rest)).countP (isLevel "medium") +
        (levelsOf (g :: rest)).countP (isLevel "high") < (g :: rest).length
      omega

/-- C10 (witness): in the three-record example, the record with level
"unknown" is counted (files_compared 3, average over all three values 80)
but the buckets sum to 2 < 3. -/
theorem claim_C10_witness :
    (compare_repos_summary exFiles).files_compared = 3 ∧
    (compare_repos_summary exFiles).average_similarity = 80 ∧
    (compare_repos_summary exFiles).dist_none + (compare_repos_summary exFiles).dist_low +
      (compare_repos_summary exFiles).dist_medium + (compare_repos_summary exFiles).dist_high <
      3 := by
  obtain ⟨h1, h2, h3⟩ :=
    claim_C10 exFiles
      [("similarity_percentage", .jint 60), ("refactoring_level", .jstr "unknown")]
      [80, 60, 100]
      (by simp [exFiles]) rfl rfl
  refine ⟨by rw [h1]; rfl, ?_, by simpa using h3⟩
  rw [h2]
  norm_num [exFiles, List.sum_cons, List.sum_nil]

end CodeComparisonTool
